import Mathlib

/-
Verification of affyio's Generic/Calvin binary-format reader
(src/read_generic.c).

A byte stream is a list of bytes together with a cursor, mirroring the C
`FILE *` / `gzFile` handle.  Machine integers are Nat/Int with explicit
two's-complement conversion.  The `fread_be_*` / `gzread_be_*` primitives
live in fread_functions.c, which is not among the sources; they are
modelled from the specification (§4.1).  Everything in read_generic.c
itself is translated directly from that file.
-/

namespace ReadGeneric

/-- A seekable byte source: the whole file contents plus the cursor. -/
structure ByteStream where
  data : List Nat
  pos : Nat
deriving Repr, DecidableEq

/-- Big-endian value of a byte list (first byte most significant). -/
def beNat (bs : List Nat) : Nat := bs.foldl (fun a b => a * 256 + b) 0

/-- Little-endian value of a byte list, i.e. the host-order interpretation
the C code sees after `memcpy` on a little-endian machine. -/
def leNat (bs : List Nat) : Nat := bs.foldr (fun b a => a * 256 + b) 0

/-- Two's-complement reading of a 32-bit pattern. -/
def toInt32 (n : Nat) : Int :=
  if n % 2 ^ 32 < 2 ^ 31 then ((n % 2 ^ 32 : Nat) : Int)
  else ((n % 2 ^ 32 : Nat) : Int) - 2 ^ 32

/-- Two's-complement reading of a 16-bit pattern. -/
def toInt16 (n : Nat) : Int :=
  if n % 2 ^ 16 < 2 ^ 15 then ((n % 2 ^ 16 : Nat) : Int)
  else ((n % 2 ^ 16 : Nat) : Int) - 2 ^ 16

/-- Two's-complement reading of an 8-bit pattern. -/
def toInt8 (n : Nat) : Int :=
  if n % 2 ^ 8 < 2 ^ 7 then ((n % 2 ^ 8 : Nat) : Int)
  else ((n % 2 ^ 8 : Nat) : Int) - 2 ^ 8

/-- The (at most) `n` bytes of `d` starting at offset `p`. -/
def bytesAt (d : List Nat) (p n : Nat) : List Nat := (d.drop p).take n

/-- Big-endian value of the `n` bytes of `d` at offset `p`. -/
def beAt (d : List Nat) (p n : Nat) : Nat := beNat (bytesAt d p n)

/-- Modelled from the spec: the raw transfer underlying the `fread_be_*` and
`gzread_be_*` primitives of fread_functions.c (that file is not among the
sources).  §4.1: a read of `n` bytes fails when fewer than `n` bytes are
available; a short read transfers what is left and reports failure. -/
def freadBytes (s : ByteStream) (n : Nat) : List Nat × ByteStream × Bool :=
  if s.pos + n ≤ s.data.length then
    (bytesAt s.data s.pos n, ⟨s.data, s.pos + n⟩, true)
  else
    (bytesAt s.data s.pos n, ⟨s.data, max s.pos s.data.length⟩, false)

/-- Modelled from the spec: `fread_be_uchar` of fread_functions.c — one
byte, big-endian-trivially, failing on a short read. -/
def fread_be_uchar (s : ByteStream) : Option Nat × ByteStream :=
  match freadBytes s 1 with
  | (bs, s', ok) => (if ok then some (beNat bs) else none, s')

/-- Modelled from the spec: `fread_be_uint16` of fread_functions.c. -/
def fread_be_uint16 (s : ByteStream) : Option Nat × ByteStream :=
  match freadBytes s 2 with
  | (bs, s', ok) => (if ok then some (beNat bs) else none, s')

/-- Modelled from the spec: `fread_be_uint32` of fread_functions.c. -/
def fread_be_uint32 (s : ByteStream) : Option Nat × ByteStream :=
  match freadBytes s 4 with
  | (bs, s', ok) => (if ok then some (beNat bs) else none, s')

/-- Modelled from the spec: `fread_be_int32` of fread_functions.c — a
4-byte big-endian two's-complement integer. -/
def fread_be_int32 (s : ByteStream) : Option Int × ByteStream :=
  match freadBytes s 4 with
  | (bs, s', ok) => (if ok then some (toInt32 (beNat bs)) else none, s')

/-- Modelled from the spec: `fread_be_int16` of fread_functions.c. -/
def fread_be_int16 (s : ByteStream) : Option Int × ByteStream :=
  match freadBytes s 2 with
  | (bs, s', ok) => (if ok then some (toInt16 (beNat bs)) else none, s')

/-- Modelled from the spec: `fread_be_char` reading one signed byte. -/
def fread_be_char (s : ByteStream) : Option Int × ByteStream :=
  match freadBytes s 1 with
  | (bs, s', ok) => (if ok then some (toInt8 (beNat bs)) else none, s')

/-- Modelled from the spec: `fread_be_float32` of fread_functions.c — the
byte-swapped IEEE-754 bit pattern is kept as a 32-bit pattern. -/
def fread_be_float32 (s : ByteStream) : Option Nat × ByteStream :=
  match freadBytes s 4 with
  | (bs, s', ok) => (if ok then some (beNat bs) else none, s')

/-- C `fseek(stream, offset, SEEK_CUR)` (also `gzseek`): relative seek. -/
def fseekCur (s : ByteStream) (offset : Int) : ByteStream :=
  ⟨s.data, ((s.pos : Int) + offset).toNat⟩

/-- C `fseek(stream, offset, SEEK_SET)` (also `gzseek`): absolute seek. -/
def fseekSet (s : ByteStream) (offset : Nat) : ByteStream :=
  ⟨s.data, offset⟩

/-- Embeds the `ASTRING` struct of read_generic.h: an `int32` length and a
byte buffer; a NULL buffer pointer is `none`. -/
structure ASTRING where
  len : Int
  value : Option (List Nat)
deriving Repr, DecidableEq

/-- Embeds the `AWSTRING` struct: an `int32` length and a buffer of 16-bit
code units (stored widened to `wchar_t` by the C code); NULL is `none`. -/
structure AWSTRING where
  len : Int
  value : Option (List Nat)
deriving Repr, DecidableEq

/-- Embeds `fread_ASTRING` (read_generic.c:158).  The C function ignores the
results of both reads and unconditionally returns 1; callers zero-initialise
the destination (`R_Calloc`), so a failed length read leaves `len = 0`, and a
short payload read leaves the bytes actually transferred. -/
def fread_ASTRING (s : ByteStream) : ASTRING × ByteStream × Bool :=
  match fread_be_int32 s with
  | (r, s1) =>
    let len := r.getD 0
    if len > 0 then
      match freadBytes s1 len.toNat with
      | (bs, s2, _) => (⟨len, some bs⟩, s2, true)
    else
      (⟨len, none⟩, s1, true)

/-- Embeds `fread_ASTRING_fw` (read_generic.c:172): the fixed-width variant;
after a positive-length payload it skips `length - len` bytes of padding when
`length > len`, and for a non-positive length it skips `length` bytes. -/
def fread_ASTRING_fw (s : ByteStream) (length : Int) : ASTRING × ByteStream × Bool :=
  match fread_be_int32 s with
  | (r, s1) =>
    let len := r.getD 0
    if len > 0 then
      match freadBytes s1 len.toNat with
      | (bs, s2, _) =>
        (⟨len, some bs⟩, if length > len then fseekCur s2 (length - len) else s2, true)
    else
      (⟨len, none⟩, fseekCur s1 length, true)

/-- Reads `n` big-endian 16-bit units one `fread_be_uint16` at a time, as the
loop in `fread_AWSTRING` does; the C loop ignores read failures (the unit is
then modelled as 0, the value a zero-initialised destination would keep). -/
def freadUnits (n : Nat) (s : ByteStream) : List Nat × ByteStream :=
  match n with
  | 0 => ([], s)
  | n + 1 =>
    match fread_be_uint16 s with
    | (r, s1) =>
      match freadUnits n s1 with
      | (us, s2) => (r.getD 0 :: us, s2)

/-- Embeds `fread_AWSTRING` (read_generic.c:189); like `fread_ASTRING` it
returns 1 unconditionally. -/
def fread_AWSTRING (s : ByteStream) : AWSTRING × ByteStream × Bool :=
  match fread_be_int32 s with
  | (r, s1) =>
    let len := r.getD 0
    if len > 0 then
      match freadUnits len.toNat s1 with
      | (us, s2) => (⟨len, some us⟩, s2, true)
    else
      (⟨len, none⟩, s1, true)

/-- Embeds `fread_AWSTRING_fw` (read_generic.c:211): wide fixed-width variant;
padding skip is `length - 2*len` bytes when `length > 2*len`. -/
def fread_AWSTRING_fw (s : ByteStream) (length : Int) : AWSTRING × ByteStream × Bool :=
  match fread_be_int32 s with
  | (r, s1) =>
    let len := r.getD 0
    if len > 0 then
      match freadUnits len.toNat s1 with
      | (us, s2) =>
        (⟨len, some us⟩, if length > 2 * len then fseekCur s2 (length - 2 * len) else s2, true)
    else
      (⟨len, none⟩, fseekCur s1 length, true)

/-- Embeds the `nvt_triplet` struct: name, raw value, MIME type tag. -/
structure nvt_triplet where
  name : AWSTRING
  value : ASTRING
  type : AWSTRING
deriving Repr, DecidableEq

/-- Embeds `fread_nvt_triplet` (read_generic.c:242): reads name, value and
type in that order; the C function returns 0 if any of the three sub-reads
reports failure (they never do: each unconditionally returns 1). -/
def fread_nvt_triplet (s : ByteStream) : nvt_triplet × ByteStream × Bool :=
  match fread_AWSTRING s with
  | (name, s1, ok1) =>
    match fread_ASTRING s1 with
    | (value, s2, ok2) =>
      match fread_AWSTRING s2 with
      | (ty, s3, ok3) => (⟨name, value, ty⟩, s3, ok1 && ok2 && ok3)

/-- Embeds the `col_nvts_triplet` struct: column name, type code, byte size. -/
structure col_nvts_triplet where
  name : AWSTRING
  type : Nat
  size : Int
deriving Repr, DecidableEq

/-- Embeds `fread_nvts_triplet` (read_generic.c:253): wide name (its reader
cannot fail), then a checked `uchar` type code and a checked `int32` size. -/
def fread_nvts_triplet (s : ByteStream) : Option (col_nvts_triplet × ByteStream) :=
  match fread_AWSTRING s with
  | (name, s1, _) =>
    match fread_be_uchar s1 with
    | (none, _) => none
    | (some ty, s2) =>
      match fread_be_int32 s2 with
      | (none, _) => none
      | (some size, s3) => some (⟨name, ty, size⟩, s3)

/-- The raw bytes of a metadata value buffer (a NULL pointer reads as `[]`). -/
def rawBytes (v : ASTRING) : List Nat := v.value.getD []

/-- The 4 bytes `memcpy(&contents, value.value, 4)` takes from a value
buffer.  Every scalar decoder copies exactly 4 bytes no matter what
`value.len` declares.  The buffer is allocated as `R_Calloc(len+1)`, i.e.
one zero-initialised byte past the payload (the stored list is taken to
have the declared length, as every `ASTRING` produced by a complete read
does), so the copy stays in bounds exactly when the payload holds at least
3 bytes — a 3-byte payload supplies the trailing NUL as its fourth byte.
Copying from a shorter allocation, or from a NULL pointer (`none`), is
undefined in C and is modelled as `none`. -/
def read4 (v : ASTRING) : Option (List Nat) :=
  match v.value with
  | none => none
  | some bs => if 4 ≤ bs.length + 1 then some ((bs ++ [0]).take 4) else none

/-- Embeds `decode_INT8_t` (read_generic.c:310), little-endian host path
(the `#ifndef WORDS_BIGENDIAN` branch): `contents = (contents>>24)&0xff`
applied to the host-order word, then the `(int8_t)` cast sign-extends. -/
def decode_INT8_t (v : ASTRING) : Option Int :=
  (read4 v).map fun bs => toInt8 ((leNat bs >>> 24) &&& 255)

/-- Embeds `decode_INT8_t`, big-endian host path (`WORDS_BIGENDIAN`): no
transform, the `(int8_t)` cast truncates the word to its low byte. -/
def decode_INT8_t_bigendian (v : ASTRING) : Option Int :=
  (read4 v).map fun bs => toInt8 (beNat bs)

/-- Embeds `decode_UINT8_t` (read_generic.c:325), little-endian host path. -/
def decode_UINT8_t (v : ASTRING) : Option Nat :=
  (read4 v).map fun bs => (leNat bs >>> 24) &&& 255

/-- Embeds `decode_UINT8_t`, big-endian host path: `(uint8_t)` cast. -/
def decode_UINT8_t_bigendian (v : ASTRING) : Option Nat :=
  (read4 v).map fun bs => beNat bs % 2 ^ 8

/-- Embeds `decode_INT16_t` (read_generic.c:340), little-endian host path:
`contents = ((contents>>24)&0xff) | ((contents>>8)&0xff00)`, then the
`(int16_t)` cast. -/
def decode_INT16_t (v : ASTRING) : Option Int :=
  (read4 v).map fun bs =>
    toInt16 (((leNat bs >>> 24) &&& 255) ||| ((leNat bs >>> 8) &&& 65280))

/-- Embeds `decode_INT16_t`, big-endian host path: `(int16_t)` cast of the
untransformed word. -/
def decode_INT16_t_bigendian (v : ASTRING) : Option Int :=
  (read4 v).map fun bs => toInt16 (beNat bs)

/-- Embeds `decode_UINT16_t` (read_generic.c:356), little-endian host path. -/
def decode_UINT16_t (v : ASTRING) : Option Nat :=
  (read4 v).map fun bs =>
    ((leNat bs >>> 24) &&& 255) ||| ((leNat bs >>> 8) &&& 65280)

/-- Embeds `decode_UINT16_t`, big-endian host path: `(uint16_t)` cast. -/
def decode_UINT16_t_bigendian (v : ASTRING) : Option Nat :=
  (read4 v).map fun bs => beNat bs % 2 ^ 16

/-- The full 4-byte swap `((c>>24)&0xff)|((c&0xff)<<24)|((c>>8)&0xff00)|((c&0xff00)<<8)`
shared by the 32-bit decoders' little-endian paths. -/
def swap32 (c : Nat) : Nat :=
  ((c >>> 24) &&& 255) ||| ((c &&& 255) <<< 24) |||
    ((c >>> 8) &&& 65280) ||| ((c &&& 65280) <<< 8)

/-- Embeds `decode_INT32_t` (read_generic.c:372), little-endian host path. -/
def decode_INT32_t (v : ASTRING) : Option Int :=
  (read4 v).map fun bs => toInt32 (swap32 (leNat bs))

/-- Embeds `decode_INT32_t`, big-endian host path. -/
def decode_INT32_t_bigendian (v : ASTRING) : Option Int :=
  (read4 v).map fun bs => toInt32 (beNat bs)

/-- Embeds `decode_UINT32_t` (read_generic.c:388), little-endian host path;
note the C function is declared to return `int32_t`, so the unsigned word is
converted to a signed one on return. -/
def decode_UINT32_t (v : ASTRING) : Option Int :=
  (read4 v).map fun bs => toInt32 (swap32 (leNat bs))

/-- Embeds `decode_UINT32_t`, big-endian host path. -/
def decode_UINT32_t_bigendian (v : ASTRING) : Option Int :=
  (read4 v).map fun bs => toInt32 (beNat bs)

/-- Embeds `decode_float32` (read_generic.c:404), little-endian host path:
the swapped word reinterpreted as an IEEE-754 float; the model keeps the
32-bit pattern. -/
def decode_float32 (v : ASTRING) : Option Nat :=
  (read4 v).map fun bs => swap32 (leNat bs)

/-- Embeds `decode_float32`, big-endian host path. -/
def decode_float32_bigendian (v : ASTRING) : Option Nat :=
  (read4 v).map fun bs => beNat bs

/-- Embeds `decode_ASCII` (read_generic.c:266): `value.len` bytes copied
verbatim. -/
def decode_ASCII (v : ASTRING) : List Nat := (rawBytes v).take v.len.toNat

/-- Pairs consecutive bytes into big-endian 16-bit units, as the byte-swap
loop of `decode_TEXT` does (an odd trailing byte is dropped: the C loop runs
`len/2` times). -/
def toUnits16 : List Nat → List Nat
  | a :: b :: rest => (a * 256 + b) :: toUnits16 rest
  | _ => []

/-- Embeds `decode_TEXT` (read_generic.c:283): the raw narrow payload
reinterpreted as `len/2` big-endian 16-bit code units. -/
def decode_TEXT (v : ASTRING) : List Nat :=
  toUnits16 ((rawBytes v).take v.len.toNat)

/-- Embeds the `AffyMIMEtypes` enum of read_generic.h. -/
inductive AffyMIMEtypes where
  | FLOAT32
  | PLAINTEXT
  | ASCIITEXT
  | INT8
  | UINT8
  | INT16
  | UINT16
  | INT32
  | UINT32
deriving Repr, DecidableEq

/-- Wide-character literal such as `L"text/plain"`: the code points of the
characters, compared unit-for-unit by `wcscmp`. -/
def wstr (s : String) : List Nat := s.toList.map Char.toNat

/-- Embeds `determine_MIMETYPE` (read_generic.c:427) together with whether
the warning `Rprintf` before the fallback return was reached.  A triplet
whose type tag matches no known tag falls through to `return FLOAT32`.
Note the source returns `INT16`, not `UINT16`, for the tag
`text/x-calvin-unsigned-integer-16`. -/
def determine_MIMETYPE_w (triplet : nvt_triplet) : AffyMIMEtypes × Bool :=
  let t := triplet.type.value.getD []
  if t = wstr "text/x-calvin-float" then (.FLOAT32, false)
  else if t = wstr "text/plain" then (.PLAINTEXT, false)
  else if t = wstr "text/ascii" then (.ASCIITEXT, false)
  else if t = wstr "text/x-calvin-integer-32" then (.INT32, false)
  else if t = wstr "text/x-calvin-integer-16" then (.INT16, false)
  else if t = wstr "text/x-calvin-unsigned-integer-32" then (.UINT32, false)
  else if t = wstr "text/x-calvin-unsigned-integer-16" then (.INT16, false)
  else if t = wstr "text/x-calvin-integer-8" then (.INT8, false)
  else if t = wstr "text/x-calvin-unsigned-integer-8" then (.UINT8, false)
  else (.FLOAT32, true)

/-- The classification result of `determine_MIMETYPE` alone. -/
def determine_MIMETYPE (triplet : nvt_triplet) : AffyMIMEtypes :=
  (determine_MIMETYPE_w triplet).1

/-- The nine type tags `determine_MIMETYPE` compares against. -/
def knownMIMEtags : List (List Nat) :=
  [wstr "text/x-calvin-float", wstr "text/plain", wstr "text/ascii",
   wstr "text/x-calvin-integer-32", wstr "text/x-calvin-integer-16",
   wstr "text/x-calvin-unsigned-integer-32", wstr "text/x-calvin-unsigned-integer-16",
   wstr "text/x-calvin-integer-8", wstr "text/x-calvin-unsigned-integer-8"]

/-- A decoded metadata value as `decode_MIME_value` delivers it through its
out-parameter (text kinds) or result slot (scalar kinds). -/
inductive MIMEValue where
  | ascii (bytes : List Nat)
  | text (units : List Nat)
  | u8 (v : Nat)
  | i8 (v : Int)
  | u16 (v : Nat)
  | i16 (v : Int)
  | u32 (v : Nat)
  | i32 (v : Int)
  | f32 (bits : Nat)
deriving Repr, DecidableEq

/-- Embeds `decode_MIME_value` (read_generic.c:469): dispatch on the MIME
kind to the matching scalar or text decoder.  The scalar cases write through
a typed pointer, so `UINT32`'s `int32_t` result is stored back as a
`uint32_t`; a value buffer shorter than the 4 bytes the scalar decoders copy
is undefined in C and modelled as `none`. -/
def decode_MIME_value (triplet : nvt_triplet) (mimetype : AffyMIMEtypes) : Option MIMEValue :=
  match mimetype with
  | .ASCIITEXT => some (.ascii (decode_ASCII triplet.value))
  | .PLAINTEXT => some (.text (decode_TEXT triplet.value))
  | .UINT8 => (decode_UINT8_t triplet.value).map .u8
  | .INT8 => (decode_INT8_t triplet.value).map .i8
  | .UINT16 => (decode_UINT16_t triplet.value).map .u16
  | .INT16 => (decode_INT16_t triplet.value).map .i16
  | .UINT32 => (decode_UINT32_t triplet.value).map fun v => .u32 (v % 2 ^ 32).toNat
  | .INT32 => (decode_INT32_t triplet.value).map .i32
  | .FLOAT32 => (decode_float32 triplet.value).map .f32

/-- Embeds the `generic_file_header` struct. -/
structure generic_file_header where
  magic_number : Nat
  version : Nat
  n_data_groups : Int
  first_group_file_pos : Nat
deriving Repr, DecidableEq

/-- The reason a structural read aborts.  The C readers all signal failure
by `return 0`; the constructors tag which of the distinct `return 0` sites
of `read_generic_file_header` fired (§7's error taxonomy). -/
inductive GenErr where
  | Truncated
  | BadMagic
  | UnsupportedVersion
deriving Repr, DecidableEq

/-- Embeds `read_generic_file_header` (read_generic.c:678): checked magic
byte (must be 59), checked version byte (must be 1), then the group count
and the first-group position.  The stream is returned alongside so the
bytes consumed on a failure path stay observable. -/
def read_generic_file_header (s : ByteStream) :
    Except GenErr generic_file_header × ByteStream :=
  match fread_be_uchar s with
  | (none, s1) => (.error .Truncated, s1)
  | (some magic, s1) =>
    if magic ≠ 59 then (.error .BadMagic, s1)
    else
      match fread_be_uchar s1 with
      | (none, s2) => (.error .Truncated, s2)
      | (some version, s2) =>
        if version ≠ 1 then (.error .UnsupportedVersion, s2)
        else
          match fread_be_int32 s2 with
          | (none, s3) => (.error .Truncated, s3)
          | (some nGroups, s3) =>
            match fread_be_uint32 s3 with
            | (none, s4) => (.error .Truncated, s4)
            | (some firstPos, s4) => (.ok ⟨magic, version, nGroups, firstPos⟩, s4)

/-- Embeds the recursive `generic_data_header` struct: four identifying
strings, the metadata triplets, and the owned parent-header lineage. -/
structure generic_data_header where
  data_type_id : ASTRING
  unique_file_id : ASTRING
  Date_time : AWSTRING
  locale : AWSTRING
  n_name_type_value : Int
  name_type_value : List nvt_triplet
  n_parent_headers : Int
  parent_headers : List generic_data_header

/-- The metadata-triplet loop of `read_generic_data_header` and
`read_generic_data_set`: `n` triplets, aborting when a triplet read reports
failure (it never does). -/
def read_nvt_list (n : Nat) (s : ByteStream) : Option (List nvt_triplet × ByteStream) :=
  match n with
  | 0 => some ([], s)
  | n + 1 =>
    match fread_nvt_triplet s with
    | (t, s1, ok) =>
      if ok then
        match read_nvt_list n s1 with
        | none => none
        | some (ts, s2) => some (t :: ts, s2)
      else none

/-- The parent-header loop of `read_generic_data_header`: `n` recursive
header reads, aborting on the first failure. -/
def read_parent_headers
    (readHdr : ByteStream → Option (generic_data_header × ByteStream))
    (n : Nat) (s : ByteStream) : Option (List generic_data_header × ByteStream) :=
  match n with
  | 0 => some ([], s)
  | n + 1 =>
    match readHdr s with
    | none => none
    | some (h, s1) =>
      match read_parent_headers readHdr n s1 with
      | none => none
      | some (hs, s2) => some (h :: hs, s2)

/-- Embeds `read_generic_data_header` (read_generic.c:707): two narrow
strings, two wide strings, a checked triplet count and that many triplets,
then a checked parent count and that many recursive header reads.  The C
recursion is bounded only by the input; the model adds a fuel parameter
(drivers pass more fuel than any input can consume, since every recursive
level must successfully read two 4-byte counts). -/
def read_generic_data_header : Nat → ByteStream → Option (generic_data_header × ByteStream)
  | 0, _ => none
  | fuel + 1, s =>
    match fread_ASTRING s with
    | (dti, s1, _) =>
      match fread_ASTRING s1 with
      | (ufi, s2, _) =>
        match fread_AWSTRING s2 with
        | (dt, s3, _) =>
          match fread_AWSTRING s3 with
          | (loc, s4, _) =>
            match fread_be_int32 s4 with
            | (none, _) => none
            | (some nNvt, s5) =>
              match read_nvt_list nNvt.toNat s5 with
              | none => none
              | some (nvts, s6) =>
                match fread_be_int32 s6 with
                | (none, _) => none
                | (some nPar, s7) =>
                  match read_parent_headers (read_generic_data_header fuel) nPar.toNat s7 with
                  | none => none
                  | some (parents, s8) =>
                    some (⟨dti, ufi, dt, loc, nNvt, nvts, nPar, parents⟩, s8)

/-- Embeds the `generic_data_group` struct. -/
structure generic_data_group where
  file_position_nextgroup : Nat
  file_position_first_data : Nat
  n_data_sets : Int
  data_group_name : AWSTRING
deriving Repr, DecidableEq

/-- Embeds `read_generic_data_group` (read_generic.c:753): two checked
`uint32` offsets, a checked `int32` dataset count, and the group name. -/
def read_generic_data_group (s : ByteStream) : Option (generic_data_group × ByteStream) :=
  match fread_be_uint32 s with
  | (none, _) => none
  | (some nextPos, s1) =>
    match fread_be_uint32 s1 with
    | (none, _) => none
    | (some firstData, s2) =>
      match fread_be_int32 s2 with
      | (none, _) => none
      | (some nSets, s3) =>
        match fread_AWSTRING s3 with
        | (name, s4, _) => some (⟨nextPos, firstData, nSets, name⟩, s4)

/-- One decoded table cell, tagged by its column's type code. -/
inductive CellVal where
  | i8 (v : Int)
  | u8 (v : Nat)
  | i16 (v : Int)
  | u16 (v : Nat)
  | i32 (v : Int)
  | u32 (v : Nat)
  | f32 (bits : Nat)
  | astr (v : ASTRING)
  | awstr (v : AWSTRING)
deriving Repr, DecidableEq

/-- The zero-initialised cell `R_Calloc` leaves in a freshly allocated column
array, per type code; type codes outside 0–8 hit no `switch` case, so no
array is allocated for them (`Data[i]` stays NULL). -/
def zeroCell (t : Nat) : Option CellVal :=
  match t with
  | 0 => some (.i8 0)
  | 1 => some (.u8 0)
  | 2 => some (.i16 0)
  | 3 => some (.u16 0)
  | 4 => some (.i32 0)
  | 5 => some (.u32 0)
  | 6 => some (.f32 0)
  | 7 => some (.astr ⟨0, none⟩)
  | 8 => some (.awstr ⟨0, none⟩)
  | _ => none

/-- The per-column allocation `switch` of `read_generic_data_set`
(read_generic.c:805): an `nrows`-element zeroed array for type codes 0–8,
nothing (NULL) otherwise. -/
def alloc_column_Data (t : Nat) (nrows : Nat) : Option (List CellVal) :=
  (zeroCell t).map fun z => List.replicate nrows z

/-- Embeds the `generic_data_set` struct; `Data` is the per-column storage
(`none` where the allocation `switch` had no case). -/
structure generic_data_set where
  file_pos_first : Nat
  file_pos_last : Nat
  data_set_name : AWSTRING
  n_name_type_value : Int
  name_type_value : List nvt_triplet
  ncols : Nat
  col_name_type_value : List col_nvts_triplet
  nrows : Nat
  Data : List (Option (List CellVal))
deriving Repr, DecidableEq

/-- The column-descriptor loop of `read_generic_data_set`. -/
def read_nvts_list (n : Nat) (s : ByteStream) : Option (List col_nvts_triplet × ByteStream) :=
  match n with
  | 0 => some ([], s)
  | n + 1 =>
    match fread_nvts_triplet s with
    | none => none
    | some (c, s1) =>
      match read_nvts_list n s1 with
      | none => none
      | some (cs, s2) => some (c :: cs, s2)

/-- Embeds `read_generic_data_set` (read_generic.c:767): the schema reader —
two checked offsets, name, checked triplet count and triplets, checked
column count and descriptors, checked row count, then one typed array per
column allocated by the type-code `switch`. -/
def read_generic_data_set (s : ByteStream) : Option (generic_data_set × ByteStream) :=
  match fread_be_uint32 s with
  | (none, _) => none
  | (some posFirst, s1) =>
    match fread_be_uint32 s1 with
    | (none, _) => none
    | (some posLast, s2) =>
      match fread_AWSTRING s2 with
      | (name, s3, _) =>
        match fread_be_int32 s3 with
        | (none, _) => none
        | (some nNvt, s4) =>
          match read_nvt_list nNvt.toNat s4 with
          | none => none
          | some (nvts, s5) =>
            match fread_be_uint32 s5 with
            | (none, _) => none
            | (some ncols, s6) =>
              match read_nvts_list ncols s6 with
              | none => none
              | some (cols, s7) =>
                match fread_be_uint32 s7 with
                | (none, _) => none
                | (some nrows, s8) =>
                  some (⟨posFirst, posLast, name, nNvt, nvts, ncols, cols, nrows,
                         cols.map fun c => alloc_column_Data c.type nrows⟩, s8)

/-- One cell of the row-reading `switch` of `read_generic_data_set_rows`
(read_generic.c:840): fixed-size numerics through the checked `fread_be_*`
primitives, string types through the fixed-width codecs called with
`size - 4` (those report success unconditionally), and — crucially — no
`switch` case at all for a type code outside 0–8: nothing is read, nothing
fails. -/
def read_cell (c : col_nvts_triplet) (s : ByteStream) : Option (Option CellVal × ByteStream) :=
  match c.type with
  | 0 =>
    match fread_be_char s with
    | (none, _) => none
    | (some v, s') => some (some (.i8 v), s')
  | 1 =>
    match fread_be_uchar s with
    | (none, _) => none
    | (some v, s') => some (some (.u8 v), s')
  | 2 =>
    match fread_be_int16 s with
    | (none, _) => none
    | (some v, s') => some (some (.i16 v), s')
  | 3 =>
    match fread_be_uint16 s with
    | (none, _) => none
    | (some v, s') => some (some (.u16 v), s')
  | 4 =>
    match fread_be_int32 s with
    | (none, _) => none
    | (some v, s') => some (some (.i32 v), s')
  | 5 =>
    match fread_be_uint32 s with
    | (none, _) => none
    | (some v, s') => some (some (.u32 v), s')
  | 6 =>
    match fread_be_float32 s with
    | (none, _) => none
    | (some v, s') => some (some (.f32 v), s')
  | 7 =>
    match fread_ASTRING_fw s (c.size - 4) with
    | (v, s', _) => some (some (.astr v), s')
  | 8 =>
    match fread_AWSTRING_fw s (c.size - 4) with
    | (v, s', _) => some (some (.awstr v), s')
  | _ => some (none, s)

/-- The inner (column) loop of `read_generic_data_set_rows` for row `i`:
each decoded cell is written into slot `i` of its column's array (a cell of
unknown type has no array and writes nothing). -/
def read_row_into (cols : List col_nvts_triplet) (i j : Nat)
    (data : List (Option (List CellVal))) (s : ByteStream) :
    Option (List (Option (List CellVal)) × ByteStream) :=
  match cols with
  | [] => some (data, s)
  | c :: rest =>
    match read_cell c s with
    | none => none
    | some (cell, s') =>
      let data' :=
        match cell with
        | none => data
        | some v => data.set j ((data.getD j none).map fun arr => arr.set i v)
      read_row_into rest i (j + 1) data' s'

/-- The outer (row) loop of `read_generic_data_set_rows`, rows `i` to
`i + count - 1`. -/
def read_rows_from (cols : List col_nvts_triplet) (count i : Nat)
    (data : List (Option (List CellVal))) (s : ByteStream) :
    Option (List (Option (List CellVal)) × ByteStream) :=
  match count with
  | 0 => some (data, s)
  | count + 1 =>
    match read_row_into cols i 0 data s with
    | none => none
    | some (data', s') => read_rows_from cols count (i + 1) data' s'

/-- Embeds `read_generic_data_set_rows` (read_generic.c:834): rows outer,
columns inner, each cell dispatched on its column's type code; returns 0
only when a checked numeric read fails. -/
def read_generic_data_set_rows (ds : generic_data_set) (s : ByteStream) :
    Option (generic_data_set × ByteStream) :=
  match read_rows_from ds.col_name_type_value ds.nrows 0 ds.Data s with
  | none => none
  | some (data', s') => some ({ ds with Data := data' }, s')

/-
The gzipped-file readers (read_generic.c:910-1229) duplicate the plain-file
readers line for line over `gzFile`/`gzread_be_*`/`gzseek`, which share the
§4.1 stream contract; over the common stream model each is the same
function.  The one behavioural difference between the two paths sits in the
top-level drivers below.
-/

/-- Embeds `gzread_ASTRING` (read_generic.c:910), identical in logic to
`fread_ASTRING`. -/
def gzread_ASTRING : ByteStream → ASTRING × ByteStream × Bool := fread_ASTRING

/-- Embeds `gzread_ASTRING_fw` (read_generic.c:924). -/
def gzread_ASTRING_fw : ByteStream → Int → ASTRING × ByteStream × Bool := fread_ASTRING_fw

/-- Embeds `gzread_AWSTRING` (read_generic.c:941). -/
def gzread_AWSTRING : ByteStream → AWSTRING × ByteStream × Bool := fread_AWSTRING

/-- Embeds `gzread_AWSTRING_fw` (read_generic.c:963). -/
def gzread_AWSTRING_fw : ByteStream → Int → AWSTRING × ByteStream × Bool := fread_AWSTRING_fw

/-- Embeds `gzread_nvt_triplet` (read_generic.c:990). -/
def gzread_nvt_triplet : ByteStream → nvt_triplet × ByteStream × Bool := fread_nvt_triplet

/-- Embeds `gzread_generic_file_header` (read_generic.c:1013), identical in
logic to `read_generic_file_header`. -/
def gzread_generic_file_header : ByteStream → Except GenErr generic_file_header × ByteStream :=
  read_generic_file_header

/-- Embeds `gzread_generic_data_header` (read_generic.c:1041). -/
def gzread_generic_data_header : Nat → ByteStream → Option (generic_data_header × ByteStream) :=
  read_generic_data_header

/-- Embeds `gzread_generic_data_group` (read_generic.c:1083). -/
def gzread_generic_data_group : ByteStream → Option (generic_data_group × ByteStream) :=
  read_generic_data_group

/-- Embeds `gzread_generic_data_set` (read_generic.c:1099). -/
def gzread_generic_data_set : ByteStream → Option (generic_data_set × ByteStream) :=
  read_generic_data_set

/-- Embeds `gzread_generic_data_set_rows` (read_generic.c:1168). -/
def gzread_generic_data_set_rows :
    generic_data_set → ByteStream → Option (generic_data_set × ByteStream) :=
  read_generic_data_set_rows

/-- The dataset loop of `Read_Generic_R_List` (read_generic.c:2238-2262):
for each dataset, read its schema, read its rows, then
`fseek(infile, my_data_set.file_pos_last, SEEK_SET)` before the next one. -/
def datasets_loop (n : Nat) (s : ByteStream) :
    Option (List generic_data_set × ByteStream) :=
  match n with
  | 0 => some ([], s)
  | n + 1 =>
    match read_generic_data_set s with
    | none => none
    | some (ds0, s1) =>
      match read_generic_data_set_rows ds0 s1 with
      | none => none
      | some (ds, s2) =>
        match datasets_loop n (fseekSet s2 ds.file_pos_last) with
        | none => none
        | some (rest, s3) => some (ds :: rest, s3)

/-- The dataset loop of `gzRead_Generic` (read_generic.c:1538-1549): same
shape, including `gzseek(infile, my_data_set.file_pos_last, SEEK_SET)`. -/
def gz_datasets_loop (n : Nat) (s : ByteStream) :
    Option (List generic_data_set × ByteStream) :=
  match n with
  | 0 => some ([], s)
  | n + 1 =>
    match gzread_generic_data_set s with
    | none => none
    | some (ds0, s1) =>
      match gzread_generic_data_set_rows ds0 s1 with
      | none => none
      | some (ds, s2) =>
        match gz_datasets_loop n (fseekSet s2 ds.file_pos_last) with
        | none => none
        | some (rest, s3) => some (ds :: rest, s3)

/-- The group loop of `Read_Generic_R_List` (read_generic.c:2228-2268): read
a group, process its datasets, then
`fseek(infile, my_data_group.file_position_nextgroup, SEEK_SET)` before the
next group — the next group is parsed at the stored pointer, not wherever
the datasets left the cursor. -/
def groups_loop (n : Nat) (s : ByteStream) :
    Option (List (generic_data_group × List generic_data_set) × ByteStream) :=
  match n with
  | 0 => some ([], s)
  | n + 1 =>
    match read_generic_data_group s with
    | none => none
    | some (g, s1) =>
      match datasets_loop g.n_data_sets.toNat s1 with
      | none => none
      | some (dss, s2) =>
        match groups_loop n (fseekSet s2 g.file_position_nextgroup) with
        | none => none
        | some (rest, s3) => some ((g, dss) :: rest, s3)

/-- The group loop of `gzRead_Generic` (read_generic.c:1532-1551): read a
group and process its datasets, but — unlike the plain-file loops at
read_generic.c:1486 and 2263 — there is no `gzseek` to
`file_position_nextgroup`; the next group is parsed from wherever the last
dataset's `file_pos_last` seek left the cursor. -/
def gz_groups_loop (n : Nat) (s : ByteStream) :
    Option (List (generic_data_group × List generic_data_set) × ByteStream) :=
  match n with
  | 0 => some ([], s)
  | n + 1 =>
    match gzread_generic_data_group s with
    | none => none
    | some (g, s1) =>
      match gz_datasets_loop g.n_data_sets.toNat s1 with
      | none => none
      | some (dss, s2) =>
        match gz_groups_loop n s2 with
        | none => none
        | some (rest, s3) => some ((g, dss) :: rest, s3)

/-- Embeds the parse performed by `Read_Generic_R_List` (read_generic.c:2173):
file header, root data header, then the group loop.  The C driver never
checks the readers' return values and proceeds with indeterminate data on
failure; the model aborts instead, so only successful parses (the subject of
every claim) are represented.  The R-list marshalling is out of scope. -/
def Read_Generic_R_List (file : List Nat) :
    Option (generic_file_header × generic_data_header ×
      List (generic_data_group × List generic_data_set)) :=
  match read_generic_file_header ⟨file, 0⟩ with
  | (.error _, _) => none
  | (.ok h, s1) =>
    match read_generic_data_header (file.length + 1) s1 with
    | none => none
    | some (dh, s2) =>
      match groups_loop h.n_data_groups.toNat s2 with
      | none => none
      | some (gs, _) => some (h, dh, gs)

/-- Embeds the parse performed by `gzRead_Generic` (read_generic.c:1497):
identical to `Read_Generic_R_List` except that its group loop never seeks to
`file_position_nextgroup`. -/
def gzRead_Generic (file : List Nat) :
    Option (generic_file_header × generic_data_header ×
      List (generic_data_group × List generic_data_set)) :=
  match gzread_generic_file_header ⟨file, 0⟩ with
  | (.error _, _) => none
  | (.ok h, s1) =>
    match gzread_generic_data_header (file.length + 1) s1 with
    | none => none
    | some (dh, s2) =>
      match gz_groups_loop h.n_data_groups.toNat s2 with
      | none => none
      | some (gs, _) => some (h, dh, gs)

/-- Big-endian 4-byte encoding of a 32-bit value (used to build concrete
test streams). -/
def be32 (n : Nat) : List Nat :=
  [n / 2 ^ 24 % 256, n / 2 ^ 16 % 256, n / 2 ^ 8 % 256, n % 256]

/-- A complete 88-byte Generic file with two logical data groups.  The file
header declares 2 groups; the data header is empty.  The first group sits at
offset 34 with name code 65 (a), zero datasets and `nextGroupPosition` 70.
Physically next, at offset 52, lies a group with name code 88 (x) that is
not on the chain; the group the chain points to, at offset 70, has name
code 66 (b). -/
def c1file : List Nat :=
  [59, 1, 0, 0, 0, 2, 0, 0, 0, 34] ++
  [0,0,0,0, 0,0,0,0, 0,0,0,0, 0,0,0,0, 0,0,0,0, 0,0,0,0] ++
  [0,0,0,70, 0,0,0,52, 0,0,0,0, 0,0,0,1, 0,65] ++
  [0,0,0,0, 0,0,0,0, 0,0,0,0, 0,0,0,1, 0,88] ++
  [0,0,0,0, 0,0,0,0, 0,0,0,0, 0,0,0,1, 0,66]

/-- A metadata triplet tagged `text/x-calvin-unsigned-integer-16` whose raw
value carries the 16-bit payload 0xFFFF in the low half of the widened
4-byte field. -/
def u16triplet : nvt_triplet :=
  ⟨⟨0, none⟩, ⟨4, some [0, 0, 255, 255]⟩,
   ⟨33, some (wstr "text/x-calvin-unsigned-integer-16")⟩⟩

/-- A metadata triplet with an unrecognised type tag and the IEEE-754 bit
pattern of 1.0 as its raw value. -/
def unknownTagTriplet : nvt_triplet :=
  ⟨⟨0, none⟩, ⟨4, some [63, 128, 0, 0]⟩, ⟨20, some (wstr "text/x-calvin-double")⟩⟩

/-- A 34-byte encoding of one dataset: offsets 0 and 50, no metadata, one
column of type code 1 (uint8) and declared width 1, one row whose single
cell is the byte 7.  Its `lastRowPosition` (50) lies 16 bytes past the last
row byte (the stream ends at 34): trailing padding the reader must skip by
seeking, not by byte accounting. -/
def c5file : List Nat :=
  [0,0,0,0, 0,0,0,50, 0,0,0,0, 0,0,0,0, 0,0,0,1] ++
  [0,0,0,0, 1, 0,0,0,1] ++
  [0,0,0,1] ++
  [7]

/-- The schema `read_generic_data_set` decodes from `c5file`. -/
def c5schema : generic_data_set :=
  ⟨0, 50, ⟨0, none⟩, 0, [], 1, [⟨⟨0, none⟩, 1, 1⟩], 1, [some [.u8 0]]⟩

/-- The dataset after `read_generic_data_set_rows` fills the one cell. -/
def c5ds : generic_data_set :=
  { c5schema with Data := [some [.u8 7]] }

/-
Helper lemmas about the stream primitives, shared by the claim theorems.
-/

theorem freadBytes_of_le {d : List Nat} {p n : Nat} (h : p + n ≤ d.length) :
    freadBytes ⟨d, p⟩ n = (bytesAt d p n, ⟨d, p + n⟩, true) := by
  simp [freadBytes, h]

theorem fread_be_uchar_of_le {d : List Nat} {p : Nat} (h : p + 1 ≤ d.length) :
    fread_be_uchar ⟨d, p⟩ = (some (beAt d p 1), ⟨d, p + 1⟩) := by
  simp [fread_be_uchar, freadBytes_of_le h, beAt]

theorem fread_be_uint16_of_le {d : List Nat} {p : Nat} (h : p + 2 ≤ d.length) :
    fread_be_uint16 ⟨d, p⟩ = (some (beAt d p 2), ⟨d, p + 2⟩) := by
  simp [fread_be_uint16, freadBytes_of_le h, beAt]

theorem fread_be_uint32_of_le {d : List Nat} {p : Nat} (h : p + 4 ≤ d.length) :
    fread_be_uint32 ⟨d, p⟩ = (some (beAt d p 4), ⟨d, p + 4⟩) := by
  simp [fread_be_uint32, freadBytes_of_le h, beAt]

theorem fread_be_int32_of_le {d : List Nat} {p : Nat} (h : p + 4 ≤ d.length) :
    fread_be_int32 ⟨d, p⟩ = (some (toInt32 (beAt d p 4)), ⟨d, p + 4⟩) := by
  simp [fread_be_int32, freadBytes_of_le h, beAt]

theorem beNat_be32 {n : Nat} (h : n < 2 ^ 32) : beNat (be32 n) = n := by
  simp only [beNat, be32, List.foldl]
  omega

theorem toInt32_of_lt {n : Nat} (h : n < 2 ^ 31) : toInt32 n = n := by
  unfold toInt32
  rw [Nat.mod_eq_of_lt (show n < 2 ^ 32 by omega), if_pos h]

theorem freadUnits_snd {n : Nat} :
    ∀ {d : List Nat} {p : Nat}, p + 2 * n ≤ d.length →
      (freadUnits n ⟨d, p⟩).2 = ⟨d, p + 2 * n⟩ := by
  induction n with
  | zero => intro d p _; simp [freadUnits]
  | succ n ih =>
    intro d p h
    have h2 : p + 2 ≤ d.length := by omega
    have hrest : (p + 2) + 2 * n ≤ d.length := by omega
    simp only [freadUnits, fread_be_uint16_of_le h2]
    have := ih hrest
    rcases hu : freadUnits n ⟨d, p + 2⟩ with ⟨us, s2⟩
    rw [hu] at this
    simp only at this
    simp [this]
    omega

theorem and255_eq_mod (x : Nat) : x &&& 255 = x % 256 := by
  have h := Nat.and_pow_two_sub_one_eq_mod x 8
  norm_num at h
  exact h

theorem toInt8_congr {m n : Nat} (h : m % 2 ^ 8 = n % 2 ^ 8) : toInt8 m = toInt8 n := by
  unfold toInt8
  rw [h]

/-- C1: the plain-file driver follows the stored `nextGroupPosition` chain
(the second group it decodes is the one at offset 70, named 66), while the
gzip driver `gzRead_Generic` never seeks to `file_position_nextgroup` and
instead decodes whatever group physically follows the first one (offset 52,
named 88).  The claim that both drivers reposition to `nextGroupPosition`
fails on the gzip path. -/
theorem C1_group_chain_eval :
    (Read_Generic_R_List c1file).map
        (fun r => r.2.2.map fun g => (g.1.file_position_nextgroup, g.1.data_group_name)) =
      some [(70, ⟨1, some [65]⟩), (0, ⟨1, some [66]⟩)] ∧
    (gzRead_Generic c1file).map
        (fun r => r.2.2.map fun g => (g.1.file_position_nextgroup, g.1.data_group_name)) =
      some [(70, ⟨1, some [65]⟩), (0, ⟨1, some [88]⟩)] :=
  ⟨rfl, rfl⟩

/-- C2: `fread_nvt_triplet` reports success on a truncated stream.  The
4-byte stream `[0,0,0,1]` declares a 1-unit wide name but ends before its
2 payload bytes: the underlying unit read is short (first conjunct), yet the
triplet reader — whose sub-readers `fread_AWSTRING`/`fread_ASTRING` return 1
unconditionally — still returns success (third conjunct), so the claimed
failure propagation does not happen. -/
theorem C2_short_read_reported_ok :
    (freadBytes ⟨[0, 0, 0, 1], 4⟩ 2).2.2 = false ∧
    (fread_nvt_triplet ⟨[0, 0, 0, 1], 0⟩).1.name.len = 1 ∧
    (fread_nvt_triplet ⟨[0, 0, 0, 1], 0⟩).2.2 = true :=
  ⟨rfl, rfl, rfl⟩

/-- C3: a triplet tagged `text/x-calvin-unsigned-integer-16` is classified
by `determine_MIMETYPE` as the signed kind `INT16`, not `UINT16`, so
`decode_MIME_value` decodes its payload 0xFFFF through `decode_INT16_t` to
the signed value −1, where the unsigned decoder `decode_UINT16_t` (used for
this tag by `decode_nvt_triplet` and the print routines) yields 65535. -/
theorem C3_unsigned16_eval :
    determine_MIMETYPE u16triplet = .INT16 ∧
    determine_MIMETYPE u16triplet ≠ .UINT16 ∧
    decode_MIME_value u16triplet (determine_MIMETYPE u16triplet) = some (.i16 (-1)) ∧
    decode_UINT16_t u16triplet.value = some 65535 :=
  ⟨rfl, by decide, rfl, rfl⟩

/-- C7 counterexample: on the raw value `[1,0,0,2]` the claim predicts the
decoded int8 scalar 1 (the most-significant, first on-disk byte);
`decode_INT8_t` actually yields 2, the last on-disk byte. -/
theorem C7_counterexample :
    decode_INT8_t ⟨4, some [1, 0, 0, 2]⟩ = some 2 ∧
    decode_INT8_t ⟨4, some [1, 0, 0, 2]⟩ ≠ some 1 :=
  ⟨rfl, by decide⟩

/-- C7 (amended): for a 4-byte raw value the decoded int8 scalar equals the
LAST on-disk byte — the least-significant byte of the big-endian widened
field — sign-extended, independent of the first three bytes, of the declared
length, and of host byte order (the `WORDS_BIGENDIAN` and little-endian
compile paths agree). -/
theorem C7_int8_decodes_last_byte :
    ∀ (b0 b1 b2 b3 : Nat) (L : Int), b0 < 256 → b1 < 256 → b2 < 256 → b3 < 256 →
      decode_INT8_t ⟨L, some [b0, b1, b2, b3]⟩ = some (toInt8 b3) ∧
      decode_INT8_t_bigendian ⟨L, some [b0, b1, b2, b3]⟩ = some (toInt8 b3) := by
  intro b0 b1 b2 b3 L h0 h1 h2 h3
  have hr4 : read4 ⟨L, some [b0, b1, b2, b3]⟩ = some [b0, b1, b2, b3] := rfl
  have hle : leNat [b0, b1, b2, b3] = b0 + 256 * b1 + 65536 * b2 + 16777216 * b3 := by
    simp [leNat]
    ring
  have hbe : beNat [b0, b1, b2, b3] = 16777216 * b0 + 65536 * b1 + 256 * b2 + b3 := by
    simp [beNat]
    ring
  constructor
  · simp only [decode_INT8_t, hr4, Option.map_some']
    have hshift : leNat [b0, b1, b2, b3] >>> 24 = b3 := by
      rw [Nat.shiftRight_eq_div_pow, hle]
      omega
    rw [hshift, and255_eq_mod, Nat.mod_eq_of_lt h3]
  · simp only [decode_INT8_t_bigendian, hr4, Option.map_some']
    have : beNat [b0, b1, b2, b3] % 2 ^ 8 = b3 % 2 ^ 8 := by
      rw [hbe]
      omega
    rw [toInt8_congr this]

/-- C7 witness: the amended theorem applied at the concrete raw value
`[9,8,7,130]`: both host paths decode the last byte 130, sign-extended. -/
theorem C7_witness :
    decode_INT8_t ⟨4, some [9, 8, 7, 130]⟩ = some (toInt8 130) ∧
    decode_INT8_t_bigendian ⟨4, some [9, 8, 7, 130]⟩ = some (toInt8 130) :=
  C7_int8_decodes_last_byte 9 8 7 130 4 (by decide) (by decide) (by decide) (by decide)

/-- C9 counterexample: the claim says a raw value shorter than 4 bytes makes
the 4-byte read go out of bounds (undefined), but a 3-byte raw value is
decoded in bounds: the `memcpy` reads the zero-initialised NUL byte of the
`R_Calloc(len+1)` allocation as its fourth byte, and `decode_INT8_t`
deterministically yields 0 — a defined value, not an out-of-bounds read. -/
theorem C9_counterexample :
    decode_INT8_t ⟨3, some [5, 6, 7]⟩ = some 0 ∧
    decode_INT8_t ⟨3, some [5, 6, 7]⟩ ≠ none :=
  ⟨rfl, by decide⟩

/-- C9 (amended): every scalar metadata decoder copies exactly 4 bytes from
the raw value buffer regardless of the declared length: the result depends
only on the first 4 bytes of the `R_Calloc(len+1)` allocation — payload
plus its trailing NUL — so any two values agreeing there decode alike
(first part).  Because of that one-byte NUL slack the copy is well-defined
exactly when the payload holds at least 3 bytes: a 2-byte-or-shorter
payload (second part) or a NULL buffer (third part) makes the read go out
of bounds. -/
theorem C9_scalar_decoders_read_exactly_4 :
    (∀ (v w : ASTRING) (bsv bsw : List Nat), v.value = some bsv → w.value = some bsw →
      3 ≤ bsv.length → 3 ≤ bsw.length →
      (bsv ++ [0]).take 4 = (bsw ++ [0]).take 4 →
      decode_INT8_t v = decode_INT8_t w ∧ decode_UINT8_t v = decode_UINT8_t w ∧
      decode_INT16_t v = decode_INT16_t w ∧ decode_UINT16_t v = decode_UINT16_t w ∧
      decode_INT32_t v = decode_INT32_t w ∧ decode_UINT32_t v = decode_UINT32_t w ∧
      decode_float32 v = decode_float32 w) ∧
    (∀ (v : ASTRING) (bs : List Nat), v.value = some bs → bs.length < 3 →
      decode_INT8_t v = none ∧ decode_UINT8_t v = none ∧
      decode_INT16_t v = none ∧ decode_UINT16_t v = none ∧
      decode_INT32_t v = none ∧ decode_UINT32_t v = none ∧
      decode_float32 v = none) ∧
    (∀ (v : ASTRING), v.value = none →
      decode_INT8_t v = none ∧ decode_UINT8_t v = none ∧
      decode_INT16_t v = none ∧ decode_UINT16_t v = none ∧
      decode_INT32_t v = none ∧ decode_UINT32_t v = none ∧
      decode_float32 v = none) := by
  refine ⟨?_, ?_, ?_⟩
  · intro v w bsv bsw hv hw hlv hlw htake
    have hr : read4 v = read4 w := by
      simp only [read4, hv, hw]
      rw [if_pos (by omega), if_pos (by omega), htake]
    exact ⟨by simp [decode_INT8_t, hr], by simp [decode_UINT8_t, hr],
           by simp [decode_INT16_t, hr], by simp [decode_UINT16_t, hr],
           by simp [decode_INT32_t, hr], by simp [decode_UINT32_t, hr],
           by simp [decode_float32, hr]⟩
  · intro v bs hv hlen
    have hr : read4 v = none := by
      simp only [read4, hv]
      rw [if_neg (by omega)]
    exact ⟨by simp [decode_INT8_t, hr], by simp [decode_UINT8_t, hr],
           by simp [decode_INT16_t, hr], by simp [decode_UINT16_t, hr],
           by simp [decode_INT32_t, hr], by simp [decode_UINT32_t, hr],
           by simp [decode_float32, hr]⟩
  · intro v hv
    have hr : read4 v = none := by
      simp only [read4, hv]
    exact ⟨by simp [decode_INT8_t, hr], by simp [decode_UINT8_t, hr],
           by simp [decode_INT16_t, hr], by simp [decode_UINT16_t, hr],
           by simp [decode_INT32_t, hr], by simp [decode_UINT32_t, hr],
           by simp [decode_float32, hr]⟩

/-- C9 witness: the amended theorem applied to a 3-byte value and a longer
value agreeing on the first 4 allocation bytes (the former ending in its
NUL), to a 2-byte value (out of bounds), and to a NULL buffer. -/
theorem C9_witness :
    decode_INT32_t ⟨3, some [1, 2, 3]⟩ = decode_INT32_t ⟨9, some [1, 2, 3, 0, 7, 7]⟩ ∧
    decode_float32 ⟨2, some [1, 2]⟩ = none ∧
    decode_INT8_t ⟨0, none⟩ = none :=
  ⟨(C9_scalar_decoders_read_exactly_4.1 ⟨3, some [1, 2, 3]⟩ ⟨9, some [1, 2, 3, 0, 7, 7]⟩
      [1, 2, 3] [1, 2, 3, 0, 7, 7] rfl rfl (by decide) (by decide)
      (by decide)).2.2.2.2.1,
   (C9_scalar_decoders_read_exactly_4.2.1 ⟨2, some [1, 2]⟩ [1, 2] rfl
      (by decide)).2.2.2.2.2.2,
   (C9_scalar_decoders_read_exactly_4.2.2 ⟨0, none⟩ rfl).1⟩

/-- C8: an unrecognised (non-NULL) MIME type tag does not fail
classification: `determine_MIMETYPE` reaches the warning `Rprintf` and falls
back to `FLOAT32` (the Bool component records that the warning line ran),
and `decode_MIME_value` then still hands the caller a typed float value —
the byte-swapped bit pattern of the raw payload — rather than an error. -/
theorem C8_unknown_tag_fallback :
    ∀ (t : nvt_triplet) (ts : List Nat), t.type.value = some ts →
      ts ∉ knownMIMEtags →
      determine_MIMETYPE_w t = (.FLOAT32, true) ∧
      determine_MIMETYPE t = .FLOAT32 ∧
      ∀ bits, decode_float32 t.value = some bits →
        decode_MIME_value t (determine_MIMETYPE t) = some (.f32 bits) := by
  intro t ts hts hmem
  simp only [knownMIMEtags, List.mem_cons, List.not_mem_nil, or_false, not_or] at hmem
  obtain ⟨n1, n2, n3, n4, n5, n6, n7, n8, n9⟩ := hmem
  have hw : determine_MIMETYPE_w t = (.FLOAT32, true) := by
    simp only [determine_MIMETYPE_w, hts, Option.getD_some]
    rw [if_neg n1, if_neg n2, if_neg n3, if_neg n4, if_neg n5, if_neg n6, if_neg n7,
      if_neg n8, if_neg n9]
  refine ⟨hw, ?_, ?_⟩
  · simp [determine_MIMETYPE, hw]
  · intro bits hbits
    simp [determine_MIMETYPE, hw, decode_MIME_value, hbits]

/-- C8 witness: the theorem applied to the concrete triplet whose tag is
`text/x-calvin-double` (outside the known tag set) and whose raw value is
the big-endian bit pattern of 1.0. -/
theorem C8_witness :
    determine_MIMETYPE_w unknownTagTriplet = (.FLOAT32, true) ∧
    decode_MIME_value unknownTagTriplet (determine_MIMETYPE unknownTagTriplet) =
      some (.f32 1065353216) :=
  ⟨(C8_unknown_tag_fallback unknownTagTriplet (wstr "text/x-calvin-double") rfl
      (by decide)).1,
   (C8_unknown_tag_fallback unknownTagTriplet (wstr "text/x-calvin-double") rfl
      (by decide)).2.2 1065353216 rfl⟩

/-- C10: a column whose type code lies outside 0–8 gets no storage from the
allocation `switch` of `read_generic_data_set`, its cells consume zero bytes
during row reading (the row `switch` has no matching case, so the stream is
left where it was), and `read_generic_data_set_rows` still reports success —
silently desynchronising the cursor from any remaining data. -/
theorem C10_unknown_type_code_skipped :
    ∀ (t : Nat), 8 < t →
      (∀ nrows, alloc_column_Data t nrows = none) ∧
      (∀ (name : AWSTRING) (size : Int) (s : ByteStream),
        read_cell ⟨name, t, size⟩ s = some (none, s)) ∧
      (∀ (ds : generic_data_set) (name : AWSTRING) (size : Int) (s : ByteStream),
        ds.col_name_type_value = [⟨name, t, size⟩] → ds.Data = [none] →
        read_generic_data_set_rows ds s = some (ds, s)) := by
  intro t ht
  obtain ⟨m, rfl⟩ : ∃ m, t = m + 9 := ⟨t - 9, by omega⟩
  refine ⟨fun nrows => rfl, fun name size s => rfl, ?_⟩
  intro ds name size s hcols hdata
  have hrow : ∀ (i : Nat) (s' : ByteStream),
      read_row_into [⟨name, m + 9, size⟩] i 0 [none] s' = some ([none], s') :=
    fun i s' => rfl
  have hloop : ∀ (count i : Nat) (s' : ByteStream),
      read_rows_from [⟨name, m + 9, size⟩] count i [none] s' = some ([none], s') := by
    intro count
    induction count with
    | zero => intro i s'; rfl
    | succ k ih =>
      intro i s'
      simp only [read_rows_from, hrow]
      exact ih (i + 1) s'
  obtain ⟨f1, f2, f3, f4, f5, f6, f7, f8, f9⟩ := ds
  dsimp only at hcols hdata
  subst hcols
  subst hdata
  simp only [read_generic_data_set_rows, hloop]

/-- C10 witness: the theorem applied at type code 9 with a 2-row dataset over
a 2-byte stream: no allocation, no bytes consumed, success reported. -/
theorem C10_witness :
    alloc_column_Data 9 2 = none ∧
    read_cell ⟨⟨0, none⟩, 9, 4⟩ ⟨[5, 6], 0⟩ = some (none, ⟨[5, 6], 0⟩) ∧
    read_generic_data_set_rows
        ⟨0, 0, ⟨0, none⟩, 0, [], 1, [⟨⟨0, none⟩, 9, 4⟩], 2, [none]⟩ ⟨[5, 6], 0⟩ =
      some (⟨0, 0, ⟨0, none⟩, 0, [], 1, [⟨⟨0, none⟩, 9, 4⟩], 2, [none]⟩, ⟨[5, 6], 0⟩) :=
  ⟨(C10_unknown_type_code_skipped 9 (by decide)).1 2,
   (C10_unknown_type_code_skipped 9 (by decide)).2.1 ⟨0, none⟩ 4 ⟨[5, 6], 0⟩,
   (C10_unknown_type_code_skipped 9 (by decide)).2.2
     ⟨0, 0, ⟨0, none⟩, 0, [], 1, [⟨⟨0, none⟩, 9, 4⟩], 2, [none]⟩ ⟨0, none⟩ 4
     ⟨[5, 6], 0⟩ rfl rfl⟩

/-- C4: a fixed-width string field whose payload fits the declared on-disk
width `W` consumes exactly `W` bytes: the 4-byte length prefix, the payload,
and the skipped padding; in particular a zero-length field decodes to the
absent value (`none`) and still consumes exactly `W` bytes.  The codecs
receive `W - 4` as their `length` argument, exactly as the row reader passes
`size - 4`; `L` counts narrow bytes in the first part and wide 16-bit units
(2 payload bytes each) in the second. -/
theorem C4_fixed_width_consumption :
    (∀ (L W : Nat) (payload rest : List Nat), payload.length = L → L < 2 ^ 31 →
      4 ≤ W → L ≤ W - 4 →
      (fread_ASTRING_fw ⟨be32 L ++ payload ++ rest, 0⟩ ((W : Int) - 4)).2.1 =
        ⟨be32 L ++ payload ++ rest, W⟩ ∧
      (fread_ASTRING_fw ⟨be32 L ++ payload ++ rest, 0⟩ ((W : Int) - 4)).2.2 = true ∧
      (L = 0 →
        (fread_ASTRING_fw ⟨be32 L ++ payload ++ rest, 0⟩ ((W : Int) - 4)).1 = ⟨0, none⟩)) ∧
    (∀ (L W : Nat) (payload rest : List Nat), payload.length = 2 * L → L < 2 ^ 31 →
      4 ≤ W → 2 * L ≤ W - 4 →
      (fread_AWSTRING_fw ⟨be32 L ++ payload ++ rest, 0⟩ ((W : Int) - 4)).2.1 =
        ⟨be32 L ++ payload ++ rest, W⟩ ∧
      (fread_AWSTRING_fw ⟨be32 L ++ payload ++ rest, 0⟩ ((W : Int) - 4)).2.2 = true ∧
      (L = 0 →
        (fread_AWSTRING_fw ⟨be32 L ++ payload ++ rest, 0⟩ ((W : Int) - 4)).1 = ⟨0, none⟩)) := by
  have hb32len : ∀ L : Nat, (be32 L).length = 4 := fun L => rfl
  constructor
  · intro L W payload rest hlen hL hW hfit
    have hdlen : (be32 L ++ payload ++ rest).length = 4 + L + rest.length := by
      simp [hb32len, hlen]
      omega
    have hbytes4 : bytesAt (be32 L ++ payload ++ rest) 0 4 = be32 L := by
      rw [bytesAt, List.drop_zero, List.append_assoc]
      exact List.take_left' (hb32len L)
    have hstep1 : fread_be_int32 ⟨be32 L ++ payload ++ rest, 0⟩ = (some (L : Int), ⟨be32 L ++ payload ++ rest, 0 + 4⟩) := by
      rw [fread_be_int32_of_le (by omega)]
      rw [beAt, hbytes4, beNat_be32 (by omega), toInt32_of_lt hL]
    rcases Nat.eq_zero_or_pos L with h0 | hpos
    · subst h0
      simp only [fread_ASTRING_fw, hstep1, Option.getD_some]
      rw [if_neg (by norm_num)]
      refine ⟨?_, rfl, fun _ => rfl⟩
      simp only [fseekCur]
      rw [ByteStream.mk.injEq]
      exact ⟨rfl, by omega⟩
    · have hLpos : (0 : Int) < (L : Int) := by exact_mod_cast hpos
      have hread : freadBytes ⟨be32 L ++ payload ++ rest, 0 + 4⟩ ((L : Int)).toNat =
          (bytesAt (be32 L ++ payload ++ rest) (0 + 4) L, ⟨be32 L ++ payload ++ rest, 0 + 4 + L⟩, true) := by
        rw [Int.toNat_natCast]
        exact freadBytes_of_le (by omega)
      simp only [fread_ASTRING_fw, hstep1, Option.getD_some]
      rw [if_pos hLpos, hread]
      by_cases hgt : (W : Int) - 4 > (L : Int)
      · rw [if_pos hgt]
        refine ⟨?_, rfl, fun h => absurd h (by omega)⟩
        simp only [fseekCur]
        rw [ByteStream.mk.injEq]
        exact ⟨rfl, by omega⟩
      · rw [if_neg hgt]
        have hWL : 4 + L = W := by omega
        refine ⟨?_, rfl, fun h => absurd h (by omega)⟩
        rw [ByteStream.mk.injEq]
        exact ⟨rfl, by omega⟩
  · intro L W payload rest hlen hL hW hfit
    have hdlen : (be32 L ++ payload ++ rest).length = 4 + 2 * L + rest.length := by
      simp [hb32len, hlen]
      omega
    have hbytes4 : bytesAt (be32 L ++ payload ++ rest) 0 4 = be32 L := by
      rw [bytesAt, List.drop_zero, List.append_assoc]
      exact List.take_left' (hb32len L)
    have hstep1 : fread_be_int32 ⟨be32 L ++ payload ++ rest, 0⟩ = (some (L : Int), ⟨be32 L ++ payload ++ rest, 0 + 4⟩) := by
      rw [fread_be_int32_of_le (by omega)]
      rw [beAt, hbytes4, beNat_be32 (by omega), toInt32_of_lt hL]
    rcases Nat.eq_zero_or_pos L with h0 | hpos
    · subst h0
      simp only [fread_AWSTRING_fw, hstep1, Option.getD_some]
      rw [if_neg (by norm_num)]
      refine ⟨?_, rfl, fun _ => rfl⟩
      simp only [fseekCur]
      rw [ByteStream.mk.injEq]
      exact ⟨rfl, by omega⟩
    · have hLpos : (0 : Int) < (L : Int) := by exact_mod_cast hpos
      have hunits : (freadUnits ((L : Int)).toNat ⟨be32 L ++ payload ++ rest, 0 + 4⟩).2 =
          ⟨be32 L ++ payload ++ rest, 0 + 4 + 2 * L⟩ := by
        rw [Int.toNat_natCast]
        exact freadUnits_snd (by omega)
      simp only [fread_AWSTRING_fw, hstep1, Option.getD_some]
      rw [if_pos hLpos]
      rcases hu : freadUnits ((L : Int)).toNat ⟨be32 L ++ payload ++ rest, 0 + 4⟩ with ⟨us, s2⟩
      rw [hu] at hunits
      simp only at hunits
      subst hunits
      by_cases hgt : (W : Int) - 4 > 2 * (L : Int)
      · rw [if_pos hgt]
        refine ⟨?_, rfl, fun h => absurd h (by omega)⟩
        simp only [fseekCur]
        rw [ByteStream.mk.injEq]
        exact ⟨rfl, by omega⟩
      · rw [if_neg hgt]
        refine ⟨?_, rfl, fun h => absurd h (by omega)⟩
        rw [ByteStream.mk.injEq]
        exact ⟨rfl, by omega⟩

/-- C4 witness: the theorem applied to a narrow field of payload `[65,66]`
inside declared width 10 (consumes the full 10 bytes) and to a zero-length
wide field of declared width 8 (absent value, full 8 bytes consumed). -/
theorem C4_witness :
    (fread_ASTRING_fw ⟨be32 2 ++ [65, 66] ++ [], 0⟩ (((10 : Nat) : Int) - 4)).2.1 =
      ⟨be32 2 ++ [65, 66] ++ [], 10⟩ ∧
    (fread_AWSTRING_fw ⟨be32 0 ++ [] ++ [9, 9, 9, 9], 0⟩ (((8 : Nat) : Int) - 4)).1 =
      ⟨0, none⟩ :=
  ⟨(C4_fixed_width_consumption.1 2 10 [65, 66] [] rfl (by norm_num) (by norm_num)
      (by norm_num)).1,
   (C4_fixed_width_consumption.2 0 8 [] [9, 9, 9, 9] rfl (by norm_num) (by norm_num)
      (by norm_num)).2.2 rfl⟩

/-- C5: in both drivers' dataset loops, once a dataset's schema and rows are
read, the remaining datasets are parsed from a stream repositioned by
`fseekSet` to that dataset's `file_pos_last` — the resume position depends
only on the stored offset, not on where the row bytes ended, so trailing
padding between the last row byte and `lastRowPosition` is skipped. -/
theorem C5_seek_to_lastRowPosition :
    ∀ (n : Nat) (s s1 s2 : ByteStream) (ds0 ds : generic_data_set),
      read_generic_data_set s = some (ds0, s1) →
      read_generic_data_set_rows ds0 s1 = some (ds, s2) →
      datasets_loop (n + 1) s =
          (datasets_loop n (fseekSet s2 ds.file_pos_last)).map
            (fun p => (ds :: p.1, p.2)) ∧
      gz_datasets_loop (n + 1) s =
          (gz_datasets_loop n (fseekSet s2 ds.file_pos_last)).map
            (fun p => (ds :: p.1, p.2)) ∧
      fseekSet s2 ds.file_pos_last = ⟨s2.data, ds.file_pos_last⟩ := by
  intro n s s1 s2 ds0 ds h1 h2
  refine ⟨?_, ?_, rfl⟩
  · simp only [datasets_loop, h1, h2]
    cases he : datasets_loop n (fseekSet s2 ds.file_pos_last) with
    | none => rfl
    | some p => rfl
  · simp only [gz_datasets_loop, gzread_generic_data_set, gzread_generic_data_set_rows,
      h1, h2]
    cases he : gz_datasets_loop n (fseekSet s2 ds.file_pos_last) with
    | none => rfl
    | some p => rfl

/-- C5 witness: the theorem applied to the one-dataset stream `c5file`,
whose `lastRowPosition` (50) lies 16 bytes past the final row byte (34): the
loop continues from position 50. -/
theorem C5_witness :
    datasets_loop 1 ⟨c5file, 0⟩ =
      (datasets_loop 0 (fseekSet ⟨c5file, 34⟩ c5ds.file_pos_last)).map
        (fun p => (c5ds :: p.1, p.2)) :=
  (C5_seek_to_lastRowPosition 0 ⟨c5file, 0⟩ ⟨c5file, 33⟩ ⟨c5file, 34⟩ c5schema c5ds
    rfl rfl).1

/-- C6: the file-header readers (the gzip one is the same logic) succeed
exactly when the first byte is 59 and the second is 1: a wrong magic fails
as `BadMagic` with exactly one byte consumed; magic 59 with a wrong version
fails as `UnsupportedVersion`; on success the returned header carries the
`int32` group count and the `uint32` first-group position read from the
following 8 bytes. -/
theorem C6_file_header :
    ∀ (s : ByteStream),
      (s.pos + 1 ≤ s.data.length → beAt s.data s.pos 1 ≠ 59 →
        read_generic_file_header s = (.error .BadMagic, ⟨s.data, s.pos + 1⟩) ∧
        gzread_generic_file_header s = (.error .BadMagic, ⟨s.data, s.pos + 1⟩)) ∧
      (s.pos + 2 ≤ s.data.length → beAt s.data s.pos 1 = 59 →
        beAt s.data (s.pos + 1) 1 ≠ 1 →
        (read_generic_file_header s).1 = .error .UnsupportedVersion ∧
        (gzread_generic_file_header s).1 = .error .UnsupportedVersion) ∧
      (s.pos + 10 ≤ s.data.length → beAt s.data s.pos 1 = 59 →
        beAt s.data (s.pos + 1) 1 = 1 →
        read_generic_file_header s =
          (.ok ⟨59, 1, toInt32 (beAt s.data (s.pos + 2) 4), beAt s.data (s.pos + 6) 4⟩,
            ⟨s.data, s.pos + 10⟩) ∧
        gzread_generic_file_header s =
          (.ok ⟨59, 1, toInt32 (beAt s.data (s.pos + 2) 4), beAt s.data (s.pos + 6) 4⟩,
            ⟨s.data, s.pos + 10⟩)) ∧
      (s.pos + 10 ≤ s.data.length →
        ((∃ h, (read_generic_file_header s).1 = .ok h) ↔
          beAt s.data s.pos 1 = 59 ∧ beAt s.data (s.pos + 1) 1 = 1)) := by
  intro s
  obtain ⟨d, p⟩ := s
  have part1 : p + 1 ≤ d.length → beAt d p 1 ≠ 59 →
      read_generic_file_header ⟨d, p⟩ = (.error .BadMagic, ⟨d, p + 1⟩) := by
    intro hlen hmag
    simp only [read_generic_file_header, fread_be_uchar_of_le hlen]
    rw [if_pos hmag]
  have part2 : p + 2 ≤ d.length → beAt d p 1 = 59 → beAt d (p + 1) 1 ≠ 1 →
      read_generic_file_header ⟨d, p⟩ = (.error .UnsupportedVersion, ⟨d, p + 1 + 1⟩) := by
    intro hlen hm hv
    simp only [read_generic_file_header,
      fread_be_uchar_of_le (show p + 1 ≤ d.length by omega), hm]
    rw [if_neg (by norm_num)]
    simp only [fread_be_uchar_of_le (show (p + 1) + 1 ≤ d.length by omega)]
    rw [if_pos hv]
  have part3 : p + 10 ≤ d.length → beAt d p 1 = 59 → beAt d (p + 1) 1 = 1 →
      read_generic_file_header ⟨d, p⟩ =
        (.ok ⟨59, 1, toInt32 (beAt d (p + 2) 4), beAt d (p + 6) 4⟩, ⟨d, p + 10⟩) := by
    intro hlen hm hv
    simp only [read_generic_file_header,
      fread_be_uchar_of_le (show p + 1 ≤ d.length by omega), hm]
    rw [if_neg (by norm_num)]
    simp only [fread_be_uchar_of_le (show (p + 1) + 1 ≤ d.length by omega), hv]
    rw [if_neg (by norm_num)]
    rw [show p + 1 + 1 = p + 2 from by omega]
    simp only [fread_be_int32_of_le (show p + 2 + 4 ≤ d.length by omega)]
    rw [show p + 2 + 4 = p + 6 from by omega]
    simp only [fread_be_uint32_of_le (show p + 6 + 4 ≤ d.length by omega)]
  have part4 : p + 10 ≤ d.length →
      ((∃ h, (read_generic_file_header ⟨d, p⟩).1 = .ok h) ↔
        beAt d p 1 = 59 ∧ beAt d (p + 1) 1 = 1) := by
    intro hlen
    constructor
    · rintro ⟨h, hok⟩
      by_cases hm : beAt d p 1 = 59
      · by_cases hv : beAt d (p + 1) 1 = 1
        · exact ⟨hm, hv⟩
        · rw [part2 (by omega) hm hv] at hok
          simp at hok
      · rw [part1 (by omega) hm] at hok
        simp at hok
    · rintro ⟨hm, hv⟩
      exact ⟨_, by rw [part3 hlen hm hv]⟩
  refine ⟨fun h1 h2 => ⟨part1 h1 h2, part1 h1 h2⟩,
    fun h1 h2 h3 => ⟨by rw [part2 h1 h2 h3],
      by unfold gzread_generic_file_header; rw [part2 h1 h2 h3]⟩,
    fun h1 h2 h3 => ⟨part3 h1 h2 h3, part3 h1 h2 h3⟩,
    part4⟩

/-- C6 witness: the theorem applied at three concrete streams — magic 60
(the spec scenario 0x3C) fails as `BadMagic` after exactly one byte; magic
59 with version 2 fails as `UnsupportedVersion`; and a well-formed 10-byte
header succeeds with group count 2 and first-group position 34. -/
theorem C6_witness :
    read_generic_file_header ⟨[60], 0⟩ = (.error .BadMagic, ⟨[60], 0 + 1⟩) ∧
    (read_generic_file_header ⟨[59, 2], 0⟩).1 = .error .UnsupportedVersion ∧
    read_generic_file_header ⟨[59, 1, 0, 0, 0, 2, 0, 0, 0, 34], 0⟩ =
      (.ok ⟨59, 1, toInt32 (beAt [59, 1, 0, 0, 0, 2, 0, 0, 0, 34] (0 + 2) 4),
          beAt [59, 1, 0, 0, 0, 2, 0, 0, 0, 34] (0 + 6) 4⟩,
        ⟨[59, 1, 0, 0, 0, 2, 0, 0, 0, 34], 0 + 10⟩) :=
  ⟨((C6_file_header ⟨[60], 0⟩).1 (by norm_num) (by decide)).1,
   ((C6_file_header ⟨[59, 2], 0⟩).2.1 (by norm_num) (by decide) (by decide)).1,
   ((C6_file_header ⟨[59, 1, 0, 0, 0, 2, 0, 0, 0, 34], 0⟩).2.2.1 (by norm_num)
     (by decide) (by decide)).1⟩

end ReadGeneric
